import Mathlib

/-!
Verification of the conserved-to-primitive / primitive-to-conserved state
conversion kernel for ideal-gas MHD (file `src/eos/ideal_mhd.hpp` of the
athenak repository).

The C++ `Real` type (double) is modelled by `ℝ`; `sqrt` by `Real.sqrt`,
`fabs` by `|·|`, `fmax` by `max`, and the macro `SQR(x)` by `x*x`.
Reference out-parameters (`MHDCons1D &u`, `bool &dfloor_used`, ...) are
modelled by returning the updated values in a result structure.
The bounded `for` loops of the relativistic solver are modelled by a
fuel-based recursion (`rfLoop`) whose fuel is the loop bound 25, together
with the executed-iteration count that the code exposes through `max_iter`.
-/

noncomputable section

/-- Conserved state for MHD: density, momentum, total energy, and
cell-centered magnetic field (fields used by `ideal_mhd.hpp`). -/
structure MHDCons1D where
  d  : ℝ
  mx : ℝ
  my : ℝ
  mz : ℝ
  e  : ℝ
  bx : ℝ
  by' : ℝ
  bz : ℝ

/-- Primitive state without magnetic field, as returned by the C2P routines. -/
structure HydPrim1D where
  d  : ℝ
  vx : ℝ
  vy : ℝ
  vz : ℝ
  e  : ℝ

/-- Primitive state with cell-centered magnetic field, as consumed by
`SingleP2C_IdealMHD`. -/
structure MHDPrim1D where
  d  : ℝ
  vx : ℝ
  vy : ℝ
  vz : ℝ
  e  : ℝ
  bx : ℝ
  by' : ℝ
  bz : ℝ

/-- Conserved state without magnetic field, as produced by `SingleP2C_IdealMHD`. -/
structure HydCons1D where
  d  : ℝ
  mx : ℝ
  my : ℝ
  mz : ℝ
  e  : ℝ

/-- The EOS parameters of `EOS_Data` that the conversion functions read:
adiabatic index `gamma`, density floor `dfloor`, pressure floor `pfloor`. -/
structure EOS_Data where
  gamma  : ℝ
  dfloor : ℝ
  pfloor : ℝ

/-- Result of `SingleC2P_IdealMHD`: the (possibly floor-corrected) conserved
state passed by reference, the primitive state, and the two floor flags. -/
structure C2PResult where
  u : MHDCons1D
  w : HydPrim1D
  dfloor_used : Bool
  efloor_used : Bool

/-- Result of `SingleC2P_IdealSRMHD`: conserved state, primitive state,
floor flags and the running worst-case iteration count `max_iter`. -/
structure C2PResultSR where
  u : MHDCons1D
  w : HydPrim1D
  dfloor_used : Bool
  efloor_used : Bool
  max_iter : ℤ

/-- Density-floored conserved state of `SingleC2P_IdealMHD`
(`ideal_mhd.hpp` lines 27-30): if `u.d < dfloor` set `u.d = dfloor`. -/
def nrU1 (u : MHDCons1D) (eos : EOS_Data) : MHDCons1D :=
  if u.d < eos.dfloor then { u with d := eos.dfloor } else u

/-- Kinetic energy density `e_k = 0.5*di*(SQR(mx)+SQR(my)+SQR(mz))`
(`ideal_mhd.hpp` line 40), evaluated on a conserved state. -/
def eKin (u : MHDCons1D) : ℝ :=
  0.5 * (1 / u.d) * (u.mx * u.mx + u.my * u.my + u.mz * u.mz)

/-- Magnetic energy density `e_m = 0.5*(SQR(bx)+SQR(by)+SQR(bz))`
(`ideal_mhd.hpp` line 41). -/
def eMag (u : MHDCons1D) : ℝ :=
  0.5 * (u.bx * u.bx + u.by' * u.by' + u.bz * u.bz)

/-- Internal energy before flooring, `w.e = u.e - e_k - e_m`
(`ideal_mhd.hpp` line 42), with `e_k` computed at the floored density. -/
def nrE0 (u : MHDCons1D) (eos : EOS_Data) : ℝ :=
  (nrU1 u eos).e - eKin (nrU1 u eos) - eMag (nrU1 u eos)

/-- `SingleC2P_IdealMHD` (`ideal_mhd.hpp` lines 20-50): closed-form
non-relativistic conserved-to-primitive conversion with density and
internal-energy floors; the energy floor corrects the conserved total
energy in place. -/
def SingleC2P_IdealMHD (u : MHDCons1D) (eos : EOS_Data)
    (dfloor_used efloor_used : Bool) : C2PResult :=
  let efloor := eos.pfloor / (eos.gamma - 1)
  let u1 := nrU1 u eos
  let dfl := if u.d < eos.dfloor then true else dfloor_used
  let di := 1 / u1.d
  let e0 := nrE0 u eos
  let w : HydPrim1D :=
    { d := u1.d
      vx := di * u1.mx
      vy := di * u1.my
      vz := di * u1.mz
      e := if e0 < efloor then efloor else e0 }
  let u2 := if e0 < efloor then { u1 with e := efloor + eKin u1 + eMag u1 } else u1
  let efl := if e0 < efloor then true else efloor_used
  ⟨u2, w, dfl, efl⟩

/-- `SingleP2C_IdealMHD` (`ideal_mhd.hpp` lines 58-67): non-relativistic
primitive-to-conserved conversion. -/
def SingleP2C_IdealMHD (w : MHDPrim1D) : HydCons1D :=
  { d := w.d
    mx := w.d * w.vx
    my := w.d * w.vy
    mz := w.d * w.vz
    e := w.e + 0.5 * (w.d * (w.vx * w.vx + w.vy * w.vy + w.vz * w.vz) +
                      (w.bx * w.bx + w.by' * w.by' + w.bz * w.bz)) }

/-- `Equation49` (`ideal_mhd.hpp` lines 75-80): the bracket function
`fa(mu)` of Kastaun et al. eq. 49 (the argument `q` is unused, as in the
source). -/
def Equation49 (mu b2 rp r _q : ℝ) : ℝ :=
  let x := 1 / (1 + mu * b2)
  let rbar := x * x * r * r + mu * x * (1 + x) * rp * rp
  mu * Real.sqrt (1 + rbar) - 1

/-- The term `rbar` of eq. 38 as computed inside `Equation44`
(`ideal_mhd.hpp` lines 90-91). -/
def eq44rbar (mu b2 rpar r : ℝ) : ℝ :=
  let x := 1 / (1 + mu * b2)
  x * x * r * r + mu * x * (1 + x) * rpar * rpar

/-- The Lorentz factor `w = sqrt(1+z2)` as computed inside `Equation44`
(`ideal_mhd.hpp` lines 94-95). -/
def eq44w (mu b2 rpar r : ℝ) : ℝ :=
  let rbar := eq44rbar mu b2 rpar r
  Real.sqrt (1 + mu * mu * rbar / |1 - mu * mu * rbar|)

/-- The unfloored specific internal energy `eps` as computed inside
`Equation44` (`ideal_mhd.hpp` lines 92-98), before the `fmax` floor. -/
def eq44epsRaw (mu b2 rpar r q : ℝ) : ℝ :=
  let rbar := eq44rbar mu b2 rpar r
  let qbar := q - 0.5 * b2 - 0.5 * (mu * mu * (b2 * rbar - rpar * rpar))
  let z2 := mu * mu * rbar / |1 - mu * mu * rbar|
  let w := eq44w mu b2 rpar r
  w * (qbar - mu * rbar) + z2 / (w + 1)

/-- `Equation44` (`ideal_mhd.hpp` lines 87-105): the master function
`f(mu)` of Kastaun et al. eq. 44, with the pressure floor applied to the
specific internal energy inside the evaluation (line 102). -/
def Equation44 (mu b2 rpar r q u_d : ℝ) (eos : EOS_Data) : ℝ :=
  let x := 1 / (1 + mu * b2)
  let rbar := x * x * r * r + mu * x * (1 + x) * rpar * rpar
  let qbar := q - 0.5 * b2 - 0.5 * (mu * mu * (b2 * rbar - rpar * rpar))
  let z2 := mu * mu * rbar / |1 - mu * mu * rbar|
  let w := Real.sqrt (1 + z2)
  let wd := u_d / w
  let eps0 := w * (qbar - mu * rbar) + z2 / (w + 1)
  let gm1 := eos.gamma - 1
  let eps := max (eos.pfloor / (wd * gm1)) eps0
  let h := 1 + eos.gamma * eps
  mu - 1 / (h / w + rbar * mu)

/-- The convergence tolerance of the relativistic solver
(`ideal_mhd.hpp` line 119). -/
def tol : ℝ := 1e-12

/-- One false-position/Illinois loop of `SingleC2P_IdealSRMHD`
(`ideal_mhd.hpp` lines 164-183 and 201-220), with the remaining trip
count as fuel.  Arguments: bracket `(zm, fm)`, `(zp, fp)`, the current
candidate `z`, and the number of already executed iterations `c`.
Returns the final candidate and the executed-iteration count `iter`. -/
def rfLoop (f : ℝ → ℝ) : ℕ → ℝ → ℝ → ℝ → ℝ → ℝ → ℕ → ℝ × ℕ
  | 0, _, _, _, _, z, c => (z, c)
  | n + 1, zm, fm, zp, fp, _, c =>
      let z := (zm * fp - zp * fm) / (fp - fm)
      let fv := f z
      if |zm - zp| < tol ∨ |fv| < tol then (z, c)
      else if fv * fp < 0 then rfLoop f n zp fp z fv z (c + 1)
      else rfLoop f n zm (0.5 * fm) z fv z (c + 1)

/-- One solver phase (`ideal_mhd.hpp` lines 151-184 and 191-221):
evaluate the master function at the bracket, skip the loop entirely when
the bracket is already within tolerance (`iterations = -1`), otherwise
run at most 25 false-position iterations. -/
def rfPhase (f : ℝ → ℝ) (zm zp : ℝ) : ℝ × ℕ :=
  let fm := f zm
  let fp := f zp
  if |zm - zp| < tol ∨ |fm| + |fp| < 2 * tol then (0.5 * (zm + zp), 0)
  else rfLoop f 25 zm fm zp fp (0.5 * (zm + zp)) 0

/-- Density-floored conserved state at entry of `SingleC2P_IdealSRMHD`
(`ideal_mhd.hpp` lines 123-126). -/
def srU1 (u : MHDCons1D) (eos : EOS_Data) : MHDCons1D :=
  if u.d < eos.dfloor then { u with d := eos.dfloor } else u

/-- Energy-floored conserved state at entry of `SingleC2P_IdealSRMHD`
(`ideal_mhd.hpp` lines 129-132): `e >= pfloor/gm1 + 0.5*b2`. -/
def srU2 (u : MHDCons1D) (eos : EOS_Data) (b2 : ℝ) : MHDCons1D :=
  let u1 := srU1 u eos
  if u1.e < eos.pfloor / (eos.gamma - 1) + 0.5 * b2 then
    { u1 with e := eos.pfloor / (eos.gamma - 1) + 0.5 * b2 }
  else u1

/-- Normalized specific energy `q = u.e/u.d` (`ideal_mhd.hpp` line 135). -/
def srQ (u : MHDCons1D) (eos : EOS_Data) (b2 : ℝ) : ℝ :=
  (srU2 u eos b2).e / (srU2 u eos b2).d

/-- Normalized momentum magnitude `r = sqrt(s2)/u.d` (`ideal_mhd.hpp` line 136). -/
def srR (u : MHDCons1D) (eos : EOS_Data) (s2 b2 : ℝ) : ℝ :=
  Real.sqrt s2 / (srU2 u eos b2).d

/-- Normalized magnetization `b2/u.d` (`ideal_mhd.hpp` line 144). -/
def srB2n (u : MHDCons1D) (eos : EOS_Data) (b2 : ℝ) : ℝ :=
  b2 / (srU2 u eos b2).d

/-- Normalized parallel projection `rpar * isqrtd` (`ideal_mhd.hpp` lines 138, 145). -/
def srRparn (u : MHDCons1D) (eos : EOS_Data) (b2 rpar : ℝ) : ℝ :=
  rpar * (1 / Real.sqrt (srU2 u eos b2).d)

/-- The bracket function of phase 1 with the normalized parameters
(`ideal_mhd.hpp` lines 152-153, 166). -/
def srF1 (u : MHDCons1D) (eos : EOS_Data) (s2 b2 rpar : ℝ) : ℝ → ℝ :=
  fun mu => Equation49 mu (srB2n u eos b2) (srRparn u eos b2 rpar)
    (srR u eos s2 b2) (srQ u eos b2)

/-- Phase 1 of the relativistic solver: bracket search on `Equation49`
over `[0,1]` (`ideal_mhd.hpp` lines 147-184). -/
def srPhase1 (u : MHDCons1D) (eos : EOS_Data) (s2 b2 rpar : ℝ) : ℝ × ℕ :=
  rfPhase (srF1 u eos s2 b2 rpar) 0 1

/-- The upper bracket `z` produced by phase 1. -/
def srZ1 (u : MHDCons1D) (eos : EOS_Data) (s2 b2 rpar : ℝ) : ℝ :=
  (srPhase1 u eos s2 b2 rpar).1

/-- The number of iterations executed by phase 1. -/
def srI1 (u : MHDCons1D) (eos : EOS_Data) (s2 b2 rpar : ℝ) : ℕ :=
  (srPhase1 u eos s2 b2 rpar).2

/-- The master function of phase 2 with the normalized parameters
(`ideal_mhd.hpp` lines 192-193, 203). -/
def srF2 (u : MHDCons1D) (eos : EOS_Data) (s2 b2 rpar : ℝ) : ℝ → ℝ :=
  fun mu => Equation44 mu (srB2n u eos b2) (srRparn u eos b2 rpar)
    (srR u eos s2 b2) (srQ u eos b2) (srU2 u eos b2).d eos

/-- Phase 2 of the relativistic solver: root refinement of `Equation44`
on `[0, z1]` (`ideal_mhd.hpp` lines 186-221). -/
def srPhase2 (u : MHDCons1D) (eos : EOS_Data) (s2 b2 rpar : ℝ) : ℝ × ℕ :=
  rfPhase (srF2 u eos s2 b2 rpar) 0 (srZ1 u eos s2 b2 rpar)

/-- The converged root variable `mu` (`ideal_mhd.hpp` line 224). -/
def srMu (u : MHDCons1D) (eos : EOS_Data) (s2 b2 rpar : ℝ) : ℝ :=
  (srPhase2 u eos s2 b2 rpar).1

/-- The number of iterations executed by phase 2. -/
def srI2 (u : MHDCons1D) (eos : EOS_Data) (s2 b2 rpar : ℝ) : ℕ :=
  (srPhase2 u eos s2 b2 rpar).2

/-- The auxiliary `x = 1/(1+mu*b2)` of the postprocessing step, evaluated at
the converged `mu` (`ideal_mhd.hpp` line 225). -/
def srX (u : MHDCons1D) (eos : EOS_Data) (s2 b2 rpar : ℝ) : ℝ :=
  1 / (1 + srMu u eos s2 b2 rpar * srB2n u eos b2)

/-- `rbar` of the postprocessing step (`ideal_mhd.hpp` line 226). -/
def srRbar (u : MHDCons1D) (eos : EOS_Data) (s2 b2 rpar : ℝ) : ℝ :=
  srX u eos s2 b2 rpar * srX u eos s2 b2 rpar * srR u eos s2 b2 * srR u eos s2 b2
    + srMu u eos s2 b2 rpar * srX u eos s2 b2 rpar * (1 + srX u eos s2 b2 rpar)
      * srRparn u eos b2 rpar * srRparn u eos b2 rpar

/-- `qbar` of the postprocessing step (`ideal_mhd.hpp` line 227). -/
def srQbar (u : MHDCons1D) (eos : EOS_Data) (s2 b2 rpar : ℝ) : ℝ :=
  srQ u eos b2 - 0.5 * srB2n u eos b2
    - 0.5 * (srMu u eos s2 b2 rpar * srMu u eos s2 b2 rpar
        * (srB2n u eos b2 * srRbar u eos s2 b2 rpar
            - srRparn u eos b2 rpar * srRparn u eos b2 rpar))

/-- `z2` of the postprocessing step (`ideal_mhd.hpp` line 229). -/
def srZ2v (u : MHDCons1D) (eos : EOS_Data) (s2 b2 rpar : ℝ) : ℝ :=
  srMu u eos s2 b2 rpar * srMu u eos s2 b2 rpar * srRbar u eos s2 b2 rpar
    / |1 - srMu u eos s2 b2 rpar * srMu u eos s2 b2 rpar * srRbar u eos s2 b2 rpar|

/-- The Lorentz factor `lor = sqrt(1+z2)` (`ideal_mhd.hpp` line 230). -/
def srLor (u : MHDCons1D) (eos : EOS_Data) (s2 b2 rpar : ℝ) : ℝ :=
  Real.sqrt (1 + srZ2v u eos s2 b2 rpar)

/-- The recovered primitive density `w.d = u.d/lor` (`ideal_mhd.hpp` line 232). -/
def srWd (u : MHDCons1D) (eos : EOS_Data) (s2 b2 rpar : ℝ) : ℝ :=
  (srU2 u eos b2).d / srLor u eos s2 b2 rpar

/-- The recovered specific internal energy before the final floor
(`ideal_mhd.hpp` line 233). -/
def srEpsRaw (u : MHDCons1D) (eos : EOS_Data) (s2 b2 rpar : ℝ) : ℝ :=
  srLor u eos s2 b2 rpar * (srQbar u eos s2 b2 rpar
      - srMu u eos s2 b2 rpar * srRbar u eos s2 b2 rpar)
    + srZ2v u eos s2 b2 rpar / (srLor u eos s2 b2 rpar + 1)

/-- The final specific-internal-energy floor `epsmin = pfloor/(w.d*gm1)`
(`ideal_mhd.hpp` line 234). -/
def srEpsmin (u : MHDCons1D) (eos : EOS_Data) (s2 b2 rpar : ℝ) : ℝ :=
  eos.pfloor / (srWd u eos s2 b2 rpar * (eos.gamma - 1))

/-- The floored specific internal energy (`ideal_mhd.hpp` lines 235-238). -/
def srEps (u : MHDCons1D) (eos : EOS_Data) (s2 b2 rpar : ℝ) : ℝ :=
  if srEpsRaw u eos s2 b2 rpar ≤ srEpsmin u eos s2 b2 rpar then
    srEpsmin u eos s2 b2 rpar
  else srEpsRaw u eos s2 b2 rpar

/-- The energy-floor flag after both floor sites of `SingleC2P_IdealSRMHD`
(`ideal_mhd.hpp` lines 129-132 and 235-238). -/
def srEflOut (u : MHDCons1D) (eos : EOS_Data) (s2 b2 rpar : ℝ) (efl : Bool) : Bool :=
  if srEpsRaw u eos s2 b2 rpar ≤ srEpsmin u eos s2 b2 rpar then true
  else if (srU1 u eos).e < eos.pfloor / (eos.gamma - 1) + 0.5 * b2 then true else efl

/-- The specific enthalpy `h = 1 + gamma*eps` (`ideal_mhd.hpp` line 241). -/
def srH (u : MHDCons1D) (eos : EOS_Data) (s2 b2 rpar : ℝ) : ℝ :=
  1 + eos.gamma * srEps u eos s2 b2 rpar

/-- The conversion factor `conv = lor/(h*lor + b2)` of eq. C26
(`ideal_mhd.hpp` line 243). -/
def srConv (u : MHDCons1D) (eos : EOS_Data) (s2 b2 rpar : ℝ) : ℝ :=
  srLor u eos s2 b2 rpar / (srH u eos s2 b2 rpar * srLor u eos s2 b2 rpar + srB2n u eos b2)

/-- `SingleC2P_IdealSRMHD` (`ideal_mhd.hpp` lines 113-251): special
relativistic conserved-to-primitive conversion by two-phase bounded
false-position root finding, with entry floors and a final
specific-internal-energy floor.  The primitive velocities are the
spatial components of the 4-velocity (cf. `SingleP2C_IdealSRMHD`). -/
def SingleC2P_IdealSRMHD (u : MHDCons1D) (eos : EOS_Data) (s2 b2 rpar : ℝ)
    (dfloor_used efloor_used : Bool) (max_iter : ℤ) : C2PResultSR :=
  let u2 := srU2 u eos b2
  let isqrtd := 1 / Real.sqrt u2.d
  let hl := srH u eos s2 b2 rpar * srLor u eos s2 b2 rpar
  let rparn := srRparn u eos b2 rpar
  let m1 : ℤ := if (srI1 u eos s2 b2 rpar : ℤ) > max_iter then (srI1 u eos s2 b2 rpar : ℤ)
                else max_iter
  let m2 : ℤ := if (srI2 u eos s2 b2 rpar : ℤ) > m1 then (srI2 u eos s2 b2 rpar : ℤ) else m1
  ⟨u2,
   { d := srWd u eos s2 b2 rpar
     vx := srConv u eos s2 b2 rpar * (u2.mx / u2.d + u2.bx * isqrtd * rparn / hl)
     vy := srConv u eos s2 b2 rpar * (u2.my / u2.d + u2.by' * isqrtd * rparn / hl)
     vz := srConv u eos s2 b2 rpar * (u2.mz / u2.d + u2.bz * isqrtd * rparn / hl)
     e := srWd u eos s2 b2 rpar * srEps u eos s2 b2 rpar },
   (if u.d < eos.dfloor then true else dfloor_used),
   srEflOut u eos s2 b2 rpar efloor_used,
   m2⟩

theorem nrU1_of_not_lt {u : MHDCons1D} {eos : EOS_Data} (h : ¬ u.d < eos.dfloor) :
    nrU1 u eos = u := if_neg h

theorem nrU1_d_ge (u : MHDCons1D) (eos : EOS_Data) : eos.dfloor ≤ (nrU1 u eos).d := by
  unfold nrU1
  split_ifs with h
  · exact le_refl _
  · exact le_of_not_lt h

theorem srU1_e (u : MHDCons1D) (eos : EOS_Data) : (srU1 u eos).e = u.e := by
  unfold srU1; split_ifs <;> rfl

theorem srU2_d (u : MHDCons1D) (eos : EOS_Data) (b2 : ℝ) :
    (srU2 u eos b2).d = (srU1 u eos).d := by
  simp only [srU2]; split_ifs <;> rfl

theorem srU1_d_ge (u : MHDCons1D) (eos : EOS_Data) : eos.dfloor ≤ (srU1 u eos).d := by
  unfold srU1
  split_ifs with h
  · exact le_refl _
  · exact le_of_not_lt h

/-- C2: For every non-relativistic MHD conserved state (with its cell-centered
magnetic field) that triggers neither the density floor nor the energy floor,
converting with `SingleC2P_IdealMHD` and back with `SingleP2C_IdealMHD` using
the same magnetic field returns exactly the original density, momentum
components, and total energy. -/
theorem C2_roundtrip (u : MHDCons1D) (eos : EOS_Data) (dfl efl : Bool)
    (hdf : 0 < eos.dfloor) (hd : ¬ u.d < eos.dfloor)
    (he : ¬ nrE0 u eos < eos.pfloor / (eos.gamma - 1)) :
    SingleP2C_IdealMHD
      ⟨(SingleC2P_IdealMHD u eos dfl efl).w.d, (SingleC2P_IdealMHD u eos dfl efl).w.vx,
       (SingleC2P_IdealMHD u eos dfl efl).w.vy, (SingleC2P_IdealMHD u eos dfl efl).w.vz,
       (SingleC2P_IdealMHD u eos dfl efl).w.e, u.bx, u.by', u.bz⟩
      = ⟨u.d, u.mx, u.my, u.mz, u.e⟩ := by
  have hd0 : u.d ≠ 0 := ne_of_gt (lt_of_lt_of_le hdf (le_of_not_lt hd))
  have hu1 : nrU1 u eos = u := nrU1_of_not_lt hd
  simp only [SingleC2P_IdealMHD, SingleP2C_IdealMHD, hu1, if_neg he]
  have hE : nrE0 u eos = u.e - eKin u - eMag u := by rw [nrE0, hu1]
  rw [hE]
  simp only [eKin, eMag]
  congr 1
  all_goals field_simp
  all_goals ring

/-- Witness for C2 at a concrete no-floor state. -/
theorem C2_witness :
    (0 : ℝ) < 1/2 ∧ ¬ (1 : ℝ) < 1/2 ∧
      ¬ nrE0 ⟨1, 1, 2, 3, 100, 1, 1, 1⟩ ⟨2, 1/2, 1/2⟩ < (1/2 : ℝ) / (2 - 1) ∧
      SingleP2C_IdealMHD
        ⟨(SingleC2P_IdealMHD ⟨1, 1, 2, 3, 100, 1, 1, 1⟩ ⟨2, 1/2, 1/2⟩ false false).w.d,
         (SingleC2P_IdealMHD ⟨1, 1, 2, 3, 100, 1, 1, 1⟩ ⟨2, 1/2, 1/2⟩ false false).w.vx,
         (SingleC2P_IdealMHD ⟨1, 1, 2, 3, 100, 1, 1, 1⟩ ⟨2, 1/2, 1/2⟩ false false).w.vy,
         (SingleC2P_IdealMHD ⟨1, 1, 2, 3, 100, 1, 1, 1⟩ ⟨2, 1/2, 1/2⟩ false false).w.vz,
         (SingleC2P_IdealMHD ⟨1, 1, 2, 3, 100, 1, 1, 1⟩ ⟨2, 1/2, 1/2⟩ false false).w.e,
         1, 1, 1⟩
        = ⟨1, 1, 2, 3, 100⟩ := by
  have h1 : ¬ (1 : ℝ) < 1/2 := by norm_num
  have h2 : ¬ nrE0 ⟨1, 1, 2, 3, 100, 1, 1, 1⟩ ⟨2, 1/2, 1/2⟩ < (1/2 : ℝ) / (2 - 1) := by
    rw [nrE0, nrU1_of_not_lt h1]
    unfold eKin eMag
    norm_num
  exact ⟨by norm_num, h1, h2,
    C2_roundtrip ⟨1, 1, 2, 3, 100, 1, 1, 1⟩ ⟨2, 1/2, 1/2⟩ false false (by norm_num) h1 h2⟩

/-- C8: For every conserved state with `d < dfloor`, both `SingleC2P_IdealMHD`
and `SingleC2P_IdealSRMHD` set the conserved density to exactly `dfloor` and
raise the density-floor flag (and the non-relativistic primitive density then
equals `dfloor`); for `d >= dfloor` the flag and the density are left
unchanged. -/
theorem C8_density_floor (u : MHDCons1D) (eos : EOS_Data) (dfl efl : Bool)
    (s2 b2 rpar : ℝ) (m : ℤ) :
    (u.d < eos.dfloor →
      (SingleC2P_IdealMHD u eos dfl efl).u.d = eos.dfloor ∧
      (SingleC2P_IdealMHD u eos dfl efl).dfloor_used = true ∧
      (SingleC2P_IdealMHD u eos dfl efl).w.d = eos.dfloor ∧
      (SingleC2P_IdealSRMHD u eos s2 b2 rpar dfl efl m).u.d = eos.dfloor ∧
      (SingleC2P_IdealSRMHD u eos s2 b2 rpar dfl efl m).dfloor_used = true) ∧
    (¬ u.d < eos.dfloor →
      (SingleC2P_IdealMHD u eos dfl efl).u.d = u.d ∧
      (SingleC2P_IdealMHD u eos dfl efl).dfloor_used = dfl ∧
      (SingleC2P_IdealSRMHD u eos s2 b2 rpar dfl efl m).u.d = u.d ∧
      (SingleC2P_IdealSRMHD u eos s2 b2 rpar dfl efl m).dfloor_used = dfl) := by
  constructor
  · intro h
    have h1 : (nrU1 u eos).d = eos.dfloor := by rw [nrU1, if_pos h]
    have h2 : (srU1 u eos).d = eos.dfloor := by rw [srU1, if_pos h]
    refine ⟨?_, ?_, ?_, ?_, ?_⟩
    · simp only [SingleC2P_IdealMHD]
      split_ifs <;> simpa using h1
    · simp only [SingleC2P_IdealMHD, if_pos h]
    · simp only [SingleC2P_IdealMHD]
      exact h1
    · simp only [SingleC2P_IdealSRMHD]
      rw [srU2_d, h2]
    · simp only [SingleC2P_IdealSRMHD, if_pos h]
  · intro h
    have h1 : (nrU1 u eos).d = u.d := by rw [nrU1_of_not_lt h]
    have h2 : (srU1 u eos).d = u.d := by rw [srU1, if_neg h]
    refine ⟨?_, ?_, ?_, ?_⟩
    · simp only [SingleC2P_IdealMHD]
      split_ifs <;> simpa using h1
    · simp only [SingleC2P_IdealMHD, if_neg h]
    · simp only [SingleC2P_IdealSRMHD]
      rw [srU2_d, h2]
    · simp only [SingleC2P_IdealSRMHD, if_neg h]

/-- Witness for C8 at the spec scenario `d = -1`, `dfloor = 1e-8` (triggered
branch) and at `d = 1` (untriggered branch). -/
theorem C8_witness :
    ((-1 : ℝ) < 1e-8 ∧
      (SingleC2P_IdealMHD ⟨-1, 0, 0, 0, 1, 0, 0, 0⟩ ⟨2, 1e-8, 0⟩ false false).u.d = 1e-8 ∧
      (SingleC2P_IdealMHD ⟨-1, 0, 0, 0, 1, 0, 0, 0⟩ ⟨2, 1e-8, 0⟩ false false).dfloor_used = true ∧
      (SingleC2P_IdealMHD ⟨-1, 0, 0, 0, 1, 0, 0, 0⟩ ⟨2, 1e-8, 0⟩ false false).w.d = 1e-8 ∧
      (SingleC2P_IdealSRMHD ⟨-1, 0, 0, 0, 1, 0, 0, 0⟩ ⟨2, 1e-8, 0⟩ 0 0 0 false false 0).u.d = 1e-8 ∧
      (SingleC2P_IdealSRMHD ⟨-1, 0, 0, 0, 1, 0, 0, 0⟩ ⟨2, 1e-8, 0⟩ 0 0 0 false false 0).dfloor_used = true) ∧
    (¬ (1 : ℝ) < 1e-8 ∧
      (SingleC2P_IdealMHD ⟨1, 0, 0, 0, 1, 0, 0, 0⟩ ⟨2, 1e-8, 0⟩ false false).u.d = 1 ∧
      (SingleC2P_IdealMHD ⟨1, 0, 0, 0, 1, 0, 0, 0⟩ ⟨2, 1e-8, 0⟩ false false).dfloor_used = false) := by
  constructor
  · have h : (-1 : ℝ) < 1e-8 := by norm_num
    have := (C8_density_floor ⟨-1, 0, 0, 0, 1, 0, 0, 0⟩ ⟨2, 1e-8, 0⟩ false false 0 0 0 0).1 h
    exact ⟨h, this.1, this.2.1, this.2.2.1, this.2.2.2.1, this.2.2.2.2⟩
  · have h : ¬ (1 : ℝ) < 1e-8 := by norm_num
    have := (C8_density_floor ⟨1, 0, 0, 0, 1, 0, 0, 0⟩ ⟨2, 1e-8, 0⟩ false false 0 0 0 0).2 h
    exact ⟨h, this.1, this.2.1⟩

/-- C10: Neither conversion modifies the momentum or magnetic-field components
of the conserved state; the conserved density is written only when the density
floor triggers and the conserved energy only when the (entry-time) energy
floor triggers, so with no floor the conserved state is returned unchanged. -/
theorem C10_frame (u : MHDCons1D) (eos : EOS_Data) (dfl efl : Bool)
    (s2 b2 rpar : ℝ) (m : ℤ) :
    ((SingleC2P_IdealMHD u eos dfl efl).u.mx = u.mx ∧
     (SingleC2P_IdealMHD u eos dfl efl).u.my = u.my ∧
     (SingleC2P_IdealMHD u eos dfl efl).u.mz = u.mz ∧
     (SingleC2P_IdealMHD u eos dfl efl).u.bx = u.bx ∧
     (SingleC2P_IdealMHD u eos dfl efl).u.by' = u.by' ∧
     (SingleC2P_IdealMHD u eos dfl efl).u.bz = u.bz ∧
     (¬ u.d < eos.dfloor → (SingleC2P_IdealMHD u eos dfl efl).u.d = u.d) ∧
     (¬ nrE0 u eos < eos.pfloor / (eos.gamma - 1) →
        (SingleC2P_IdealMHD u eos dfl efl).u.e = u.e) ∧
     (¬ u.d < eos.dfloor → ¬ nrE0 u eos < eos.pfloor / (eos.gamma - 1) →
        (SingleC2P_IdealMHD u eos dfl efl).u = u)) ∧
    ((SingleC2P_IdealSRMHD u eos s2 b2 rpar dfl efl m).u.mx = u.mx ∧
     (SingleC2P_IdealSRMHD u eos s2 b2 rpar dfl efl m).u.my = u.my ∧
     (SingleC2P_IdealSRMHD u eos s2 b2 rpar dfl efl m).u.mz = u.mz ∧
     (SingleC2P_IdealSRMHD u eos s2 b2 rpar dfl efl m).u.bx = u.bx ∧
     (SingleC2P_IdealSRMHD u eos s2 b2 rpar dfl efl m).u.by' = u.by' ∧
     (SingleC2P_IdealSRMHD u eos s2 b2 rpar dfl efl m).u.bz = u.bz ∧
     (¬ u.d < eos.dfloor → (SingleC2P_IdealSRMHD u eos s2 b2 rpar dfl efl m).u.d = u.d) ∧
     (¬ u.e < eos.pfloor / (eos.gamma - 1) + 0.5 * b2 →
        (SingleC2P_IdealSRMHD u eos s2 b2 rpar dfl efl m).u.e = u.e) ∧
     (¬ u.d < eos.dfloor → ¬ u.e < eos.pfloor / (eos.gamma - 1) + 0.5 * b2 →
        (SingleC2P_IdealSRMHD u eos s2 b2 rpar dfl efl m).u = u)) := by
  have hnr : (SingleC2P_IdealMHD u eos dfl efl).u.mx = u.mx ∧
      (SingleC2P_IdealMHD u eos dfl efl).u.my = u.my ∧
      (SingleC2P_IdealMHD u eos dfl efl).u.mz = u.mz ∧
      (SingleC2P_IdealMHD u eos dfl efl).u.bx = u.bx ∧
      (SingleC2P_IdealMHD u eos dfl efl).u.by' = u.by' ∧
      (SingleC2P_IdealMHD u eos dfl efl).u.bz = u.bz := by
    simp only [SingleC2P_IdealMHD, nrU1]
    split_ifs <;> simp
  have hsrp : (SingleC2P_IdealSRMHD u eos s2 b2 rpar dfl efl m).u = srU2 u eos b2 := rfl
  have hsr : (srU2 u eos b2).mx = u.mx ∧ (srU2 u eos b2).my = u.my ∧
      (srU2 u eos b2).mz = u.mz ∧ (srU2 u eos b2).bx = u.bx ∧
      (srU2 u eos b2).by' = u.by' ∧ (srU2 u eos b2).bz = u.bz := by
    simp only [srU2, srU1]
    split_ifs <;> simp
  refine ⟨⟨hnr.1, hnr.2.1, hnr.2.2.1, hnr.2.2.2.1, hnr.2.2.2.2.1, hnr.2.2.2.2.2, ?_, ?_, ?_⟩,
          ⟨by rw [hsrp]; exact hsr.1, by rw [hsrp]; exact hsr.2.1,
           by rw [hsrp]; exact hsr.2.2.1, by rw [hsrp]; exact hsr.2.2.2.1,
           by rw [hsrp]; exact hsr.2.2.2.2.1, by rw [hsrp]; exact hsr.2.2.2.2.2, ?_, ?_, ?_⟩⟩
  · intro h
    simp only [SingleC2P_IdealMHD, nrU1_of_not_lt h]
    split_ifs <;> rfl
  · intro h
    simp only [SingleC2P_IdealMHD, if_neg h, nrU1]
    split_ifs <;> rfl
  · intro h1 h2
    simp only [SingleC2P_IdealMHD, if_neg h2, nrU1_of_not_lt h1]
  · intro h
    rw [hsrp, srU2_d, srU1, if_neg h]
  · intro h
    rw [hsrp]
    have h1 : (srU1 u eos).e = u.e := srU1_e u eos
    simp only [srU2, h1, if_neg h]
  · intro h1 h2
    rw [hsrp]
    have hu1 : srU1 u eos = u := by rw [srU1, if_neg h1]
    simp only [srU2, hu1, if_neg h2]

/-- Witness for C10 at a concrete no-floor state for both converters. -/
theorem C10_witness :
    ¬ (1 : ℝ) < 1e-8 ∧ ¬ nrE0 ⟨1, 0, 0, 0, 1, 0, 0, 0⟩ ⟨2, 1e-8, 0⟩ < (0 : ℝ) / (2 - 1) ∧
    ¬ (1 : ℝ) < (0 : ℝ) / (2 - 1) + 0.5 * 0 ∧
    (SingleC2P_IdealMHD ⟨1, 0, 0, 0, 1, 0, 0, 0⟩ ⟨2, 1e-8, 0⟩ false false).u
        = ⟨1, 0, 0, 0, 1, 0, 0, 0⟩ ∧
    (SingleC2P_IdealSRMHD ⟨1, 0, 0, 0, 1, 0, 0, 0⟩ ⟨2, 1e-8, 0⟩ 0 0 0 false false 0).u
        = ⟨1, 0, 0, 0, 1, 0, 0, 0⟩ := by
  have h1 : ¬ (1 : ℝ) < 1e-8 := by norm_num
  have h2 : ¬ nrE0 ⟨1, 0, 0, 0, 1, 0, 0, 0⟩ ⟨2, 1e-8, 0⟩ < (0 : ℝ) / (2 - 1) := by
    rw [nrE0, nrU1_of_not_lt h1]
    unfold eKin eMag
    norm_num
  have h3 : ¬ (1 : ℝ) < (0 : ℝ) / (2 - 1) + 0.5 * 0 := by norm_num
  have hc := C10_frame ⟨1, 0, 0, 0, 1, 0, 0, 0⟩ ⟨2, 1e-8, 0⟩ false false 0 0 0 0
  exact ⟨h1, h2, h3, hc.1.2.2.2.2.2.2.2.2 h1 h2, hc.2.2.2.2.2.2.2.2.2 h1 h3⟩

/-- C1 (amended): the non-relativistic energy floor corrects the conserved
total energy to exactly floored-internal + kinetic + magnetic energy; the
relativistic converter's entry-time energy floor instead sets the conserved
energy to `pfloor/(gamma-1) + 0.5*b2` (no kinetic-energy term), and its
postprocessing energy-floor site leaves the conserved energy unchanged. -/
theorem C1_amended :
    (∀ (u : MHDCons1D) (eos : EOS_Data) (dfl efl : Bool),
      nrE0 u eos < eos.pfloor / (eos.gamma - 1) →
        (SingleC2P_IdealMHD u eos dfl efl).u.e
          = (SingleC2P_IdealMHD u eos dfl efl).w.e
            + eKin (SingleC2P_IdealMHD u eos dfl efl).u
            + eMag (SingleC2P_IdealMHD u eos dfl efl).u) ∧
    (∀ (u : MHDCons1D) (eos : EOS_Data) (s2 b2 rpar : ℝ) (dfl efl : Bool) (m : ℤ),
      (SingleC2P_IdealSRMHD u eos s2 b2 rpar dfl efl m).u.e
        = if u.e < eos.pfloor / (eos.gamma - 1) + 0.5 * b2 then
            eos.pfloor / (eos.gamma - 1) + 0.5 * b2
          else u.e) := by
  constructor
  · intro u eos dfl efl h
    simp only [SingleC2P_IdealMHD, if_pos h]
    have hk : eKin { nrU1 u eos with
        e := (eos.pfloor / (eos.gamma - 1) + eKin (nrU1 u eos) + eMag (nrU1 u eos)) }
        = eKin (nrU1 u eos) := rfl
    have hm : eMag { nrU1 u eos with
        e := (eos.pfloor / (eos.gamma - 1) + eKin (nrU1 u eos) + eMag (nrU1 u eos)) }
        = eMag (nrU1 u eos) := rfl
    rw [hk, hm]
  · intro u eos s2 b2 rpar dfl efl m
    have hsrp : (SingleC2P_IdealSRMHD u eos s2 b2 rpar dfl efl m).u = srU2 u eos b2 := rfl
    rw [hsrp]
    have h1 : (srU1 u eos).e = u.e := srU1_e u eos
    simp only [srU2, h1]
    split_ifs <;> simp [h1]

/-- Witness for C1 (amended): concrete energy-floor-triggering inputs. -/
theorem C1_witness :
    nrE0 ⟨1, 1, 0, 0, 0, 0, 0, 0⟩ ⟨2, 1e-8, 1⟩ < (1 : ℝ) / (2 - 1) ∧
    (SingleC2P_IdealMHD ⟨1, 1, 0, 0, 0, 0, 0, 0⟩ ⟨2, 1e-8, 1⟩ false false).u.e
      = (SingleC2P_IdealMHD ⟨1, 1, 0, 0, 0, 0, 0, 0⟩ ⟨2, 1e-8, 1⟩ false false).w.e
        + eKin (SingleC2P_IdealMHD ⟨1, 1, 0, 0, 0, 0, 0, 0⟩ ⟨2, 1e-8, 1⟩ false false).u
        + eMag (SingleC2P_IdealMHD ⟨1, 1, 0, 0, 0, 0, 0, 0⟩ ⟨2, 1e-8, 1⟩ false false).u ∧
    (SingleC2P_IdealSRMHD ⟨1, 0, 0, 0, 0, 0, 0, 0⟩ ⟨2, 1e-8, 1⟩ 0 0 0 false false 0).u.e
      = if (0 : ℝ) < (1 : ℝ) / (2 - 1) + 0.5 * 0 then (1 : ℝ) / (2 - 1) + 0.5 * 0 else 0 := by
  have h : nrE0 ⟨1, 1, 0, 0, 0, 0, 0, 0⟩ ⟨2, 1e-8, 1⟩ < (1 : ℝ) / (2 - 1) := by
    have h1 : ¬ (1 : ℝ) < 1e-8 := by norm_num
    rw [nrE0, nrU1_of_not_lt h1]
    unfold eKin eMag
    norm_num
  exact ⟨h, C1_amended.1 ⟨1, 1, 0, 0, 0, 0, 0, 0⟩ ⟨2, 1e-8, 1⟩ false false h,
    C1_amended.2 ⟨1, 0, 0, 0, 0, 0, 0, 0⟩ ⟨2, 1e-8, 1⟩ 0 0 0 false false 0⟩

/-- C3 (amended): the non-relativistic conversion always returns a primitive
density at or above the density floor, and the relativistic conversion
guarantees this for the conserved density; the relativistic primitive density
is `u.d/lorentz` and can drop below the floor (see the counterexample). -/
theorem C3_amended :
    (∀ (u : MHDCons1D) (eos : EOS_Data) (dfl efl : Bool),
      eos.dfloor ≤ (SingleC2P_IdealMHD u eos dfl efl).w.d) ∧
    (∀ (u : MHDCons1D) (eos : EOS_Data) (s2 b2 rpar : ℝ) (dfl efl : Bool) (m : ℤ),
      eos.dfloor ≤ (SingleC2P_IdealSRMHD u eos s2 b2 rpar dfl efl m).u.d) := by
  constructor
  · intro u eos dfl efl
    have : (SingleC2P_IdealMHD u eos dfl efl).w.d = (nrU1 u eos).d := rfl
    rw [this]
    exact nrU1_d_ge u eos
  · intro u eos s2 b2 rpar dfl efl m
    have : (SingleC2P_IdealSRMHD u eos s2 b2 rpar dfl efl m).u.d = (srU2 u eos b2).d := rfl
    rw [this, srU2_d]
    exact srU1_d_ge u eos

/-! ### Properties of the false-position loop -/

theorem tol_pos : 0 < tol := by norm_num [tol]

theorem rfLoop_zero (f : ℝ → ℝ) (zm fm zp fp z : ℝ) (c : ℕ) :
    rfLoop f 0 zm fm zp fp z c = (z, c) := rfl

theorem rfLoop_succ (f : ℝ → ℝ) (n : ℕ) (zm fm zp fp z : ℝ) (c : ℕ) :
    rfLoop f (n + 1) zm fm zp fp z c =
      if |zm - zp| < tol ∨ |f ((zm * fp - zp * fm) / (fp - fm))| < tol then
        ((zm * fp - zp * fm) / (fp - fm), c)
      else if f ((zm * fp - zp * fm) / (fp - fm)) * fp < 0 then
        rfLoop f n zp fp ((zm * fp - zp * fm) / (fp - fm))
          (f ((zm * fp - zp * fm) / (fp - fm))) ((zm * fp - zp * fm) / (fp - fm)) (c + 1)
      else
        rfLoop f n zm (0.5 * fm) ((zm * fp - zp * fm) / (fp - fm))
          (f ((zm * fp - zp * fm) / (fp - fm))) ((zm * fp - zp * fm) / (fp - fm)) (c + 1) := rfl

/-- The executed-iteration count never exceeds the fuel. -/
theorem rfLoop_snd_le (f : ℝ → ℝ) : ∀ (n : ℕ) (zm fm zp fp z : ℝ) (c : ℕ),
    (rfLoop f n zm fm zp fp z c).2 ≤ c + n := by
  intro n
  induction n with
  | zero =>
    intro zm fm zp fp z c
    rw [rfLoop_zero]
    exact Nat.le_add_right c 0
  | succ n ih =>
    intro zm fm zp fp z c
    rw [rfLoop_succ]
    split_ifs
    · exact Nat.le_add_right c (n + 1)
    · exact le_trans (ih _ _ _ _ _ _) (by omega)
    · exact le_trans (ih _ _ _ _ _ _) (by omega)

/-- A solver phase executes at most 25 iterations. -/
theorem rfPhase_snd_le (f : ℝ → ℝ) (zm zp : ℝ) : (rfPhase f zm zp).2 ≤ 25 := by
  simp only [rfPhase]
  split_ifs
  · exact Nat.zero_le 25
  · simpa using rfLoop_snd_le f 25 zm (f zm) zp (f zp) (0.5 * (zm + zp)) 0

/-- If the very first interpolant of a phase is an exact root of `f` and the
initial bracket is not within tolerance, the phase stops after its first
iteration at that interpolant. -/
theorem rfPhase_first_exact (f : ℝ → ℝ) (zm zp : ℝ)
    (h1 : ¬ |zm - zp| < tol) (h2 : ¬ |f zm| + |f zp| < 2 * tol)
    (h3 : f ((zm * f zp - zp * f zm) / (f zp - f zm)) = 0) :
    rfPhase f zm zp = ((zm * f zp - zp * f zm) / (f zp - f zm), 0) := by
  unfold rfPhase
  rw [if_neg (by rw [not_or]; exact ⟨h1, h2⟩)]
  have h25 : (25 : ℕ) = 24 + 1 := rfl
  rw [h25, rfLoop_succ]
  rw [if_pos (Or.inr (by rw [h3, abs_zero]; exact tol_pos))]

/-- C4: each of the two false-position phases of `SingleC2P_IdealSRMHD`
executes at most 25 loop iterations (and, being modelled by fuelled
recursion, terminates); the total across both phases is at most 50. -/
theorem C4_iter_bound (u : MHDCons1D) (eos : EOS_Data) (s2 b2 rpar : ℝ) :
    srI1 u eos s2 b2 rpar ≤ 25 ∧ srI2 u eos s2 b2 rpar ≤ 25 ∧
      srI1 u eos s2 b2 rpar + srI2 u eos s2 b2 rpar ≤ 50 := by
  have h1 : srI1 u eos s2 b2 rpar ≤ 25 := rfPhase_snd_le _ 0 1
  have h2 : srI2 u eos s2 b2 rpar ≤ 25 := rfPhase_snd_le _ 0 _
  exact ⟨h1, h2, by omega⟩

/-! ### Pointwise evaluation of the master functions -/

theorem sqrt_four : Real.sqrt 4 = 2 := by
  rw [show (4 : ℝ) = 2 ^ 2 by norm_num, Real.sqrt_sq (by norm_num : (0 : ℝ) ≤ 2)]

theorem sqrt3_sq : Real.sqrt 3 * Real.sqrt 3 = 3 :=
  Real.mul_self_sqrt (by norm_num)

/-- Evaluation scheme for `Equation49` through its intermediate quantities. -/
theorem Equation49_eval (mu b2 rp r q x rbar : ℝ)
    (hx : 1 / (1 + mu * b2) = x)
    (hrbar : x * x * r * r + mu * x * (1 + x) * rp * rp = rbar) :
    Equation49 mu b2 rp r q = mu * Real.sqrt (1 + rbar) - 1 := by
  simp only [Equation49]
  rw [hx, hrbar]

/-- Evaluation scheme for `Equation44` through its intermediate quantities. -/
theorem Equation44_eval (mu b2 rpar r q u_d : ℝ) (eos : EOS_Data)
    (x rbar qbar z2 w eps : ℝ)
    (hx : 1 / (1 + mu * b2) = x)
    (hrbar : x * x * r * r + mu * x * (1 + x) * rpar * rpar = rbar)
    (hqbar : q - 0.5 * b2 - 0.5 * (mu * mu * (b2 * rbar - rpar * rpar)) = qbar)
    (hz2 : mu * mu * rbar / |1 - mu * mu * rbar| = z2)
    (hw : Real.sqrt (1 + z2) = w)
    (heps : max (eos.pfloor / (u_d / w * (eos.gamma - 1)))
        (w * (qbar - mu * rbar) + z2 / (w + 1)) = eps) :
    Equation44 mu b2 rpar r q u_d eos = mu - 1 / ((1 + eos.gamma * eps) / w + rbar * mu) := by
  simp only [Equation44]
  rw [hx, hrbar, hqbar, hz2, hw, heps]

/-- `Equation49` always evaluates to `-1` at `mu = 0`. -/
theorem eq49_zero (b2 rp r q : ℝ) : Equation49 0 b2 rp r q = -1 := by
  simp [Equation49]

/-! ### Exact evaluation of the relativistic solver on the conserved state
`d = 1, m = (1,1,1), e = 0, B = 0` with `gamma = 2, dfloor = 1, pfloor = 0`
(`s2 = 3`, `b2 = 0`, `rpar = 0`). -/

def uR1 : MHDCons1D := ⟨1, 1, 1, 1, 0, 0, 0, 0⟩

def eosR1 : EOS_Data := ⟨2, 1, 0⟩

theorem hU2_R1 : srU2 uR1 eosR1 0 = uR1 := by
  simp only [srU2, srU1, uR1, eosR1]
  norm_num

theorem hU2d_R1 : (srU2 uR1 eosR1 0).d = 1 := by rw [hU2_R1]; rfl

theorem hQ_R1 : srQ uR1 eosR1 0 = 0 := by
  rw [srQ, hU2_R1]
  simp [uR1]

theorem hR_R1 : srR uR1 eosR1 3 0 = Real.sqrt 3 := by
  rw [srR, hU2_R1]
  simp [uR1]

theorem hB2n_R1 : srB2n uR1 eosR1 0 = 0 := by
  rw [srB2n]
  simp

theorem hRparn_R1 : srRparn uR1 eosR1 0 0 = 0 := by
  rw [srRparn]
  simp

theorem hF1_zero_R1 : srF1 uR1 eosR1 3 0 0 0 = -1 := by
  simp only [srF1]
  exact eq49_zero _ _ _ _

theorem hF1_one_R1 : srF1 uR1 eosR1 3 0 0 1 = 1 := by
  simp only [srF1]
  rw [hB2n_R1, hRparn_R1, hR_R1, hQ_R1]
  rw [Equation49_eval 1 0 0 (Real.sqrt 3) 0 1 3 (by norm_num)
    (by rw [show (1 : ℝ) * 1 * Real.sqrt 3 * Real.sqrt 3
          = Real.sqrt 3 * Real.sqrt 3 by ring, sqrt3_sq]; norm_num)]
  rw [show (1 : ℝ) + 3 = 4 by norm_num, sqrt_four]
  norm_num

theorem hF1_half_R1 : srF1 uR1 eosR1 3 0 0 (1 / 2) = 0 := by
  simp only [srF1]
  rw [hB2n_R1, hRparn_R1, hR_R1, hQ_R1]
  rw [Equation49_eval (1 / 2) 0 0 (Real.sqrt 3) 0 1 3 (by norm_num)
    (by rw [show (1 : ℝ) * 1 * Real.sqrt 3 * Real.sqrt 3
          = Real.sqrt 3 * Real.sqrt 3 by ring, sqrt3_sq]; norm_num)]
  rw [show (1 : ℝ) + 3 = 4 by norm_num, sqrt_four]
  norm_num

theorem hPhase1_R1 : srPhase1 uR1 eosR1 3 0 0 = (1 / 2, 0) := by
  have harg : (0 * srF1 uR1 eosR1 3 0 0 1 - 1 * srF1 uR1 eosR1 3 0 0 0) /
      (srF1 uR1 eosR1 3 0 0 1 - srF1 uR1 eosR1 3 0 0 0) = 1 / 2 := by
    rw [hF1_zero_R1, hF1_one_R1]
    norm_num
  have h3 : srF1 uR1 eosR1 3 0 0 ((0 * srF1 uR1 eosR1 3 0 0 1 - 1 * srF1 uR1 eosR1 3 0 0 0) /
      (srF1 uR1 eosR1 3 0 0 1 - srF1 uR1 eosR1 3 0 0 0)) = 0 := by
    rw [harg]
    exact hF1_half_R1
  simp only [srPhase1]
  rw [rfPhase_first_exact (srF1 uR1 eosR1 3 0 0) 0 1 (by norm_num [tol])
    (by rw [hF1_zero_R1, hF1_one_R1]; norm_num [tol]) h3, harg]

theorem hZ1_R1 : srZ1 uR1 eosR1 3 0 0 = 1 / 2 := by
  rw [srZ1, hPhase1_R1]

theorem hF2_zero_R1 : srF2 uR1 eosR1 3 0 0 0 = -1 := by
  simp only [srF2]
  rw [hB2n_R1, hRparn_R1, hR_R1, hQ_R1, hU2d_R1]
  rw [Equation44_eval 0 0 0 (Real.sqrt 3) 0 1 eosR1 1 3 0 0 1 0 (by norm_num)
    (by rw [show (1 : ℝ) * 1 * Real.sqrt 3 * Real.sqrt 3
          = Real.sqrt 3 * Real.sqrt 3 by ring, sqrt3_sq]; norm_num)
    (by norm_num) (by norm_num)
    (by rw [show (1 : ℝ) + 0 = 1 by norm_num, Real.sqrt_one])
    (by simp only [eosR1]; norm_num)]
  simp only [eosR1]
  norm_num

theorem hF2_half_R1 : srF2 uR1 eosR1 3 0 0 (1 / 2) = 0 := by
  simp only [srF2]
  rw [hB2n_R1, hRparn_R1, hR_R1, hQ_R1, hU2d_R1]
  rw [Equation44_eval (1 / 2) 0 0 (Real.sqrt 3) 0 1 eosR1 1 3 0 3 2 0 (by norm_num)
    (by rw [show (1 : ℝ) * 1 * Real.sqrt 3 * Real.sqrt 3
          = Real.sqrt 3 * Real.sqrt 3 by ring, sqrt3_sq]; norm_num)
    (by norm_num)
    (by rw [show (1 : ℝ) - 1 / 2 * (1 / 2) * 3 = 1 / 4 by norm_num,
          abs_of_pos (by norm_num : (0 : ℝ) < 1 / 4)]; norm_num)
    (by rw [show (1 : ℝ) + 3 = 4 by norm_num, sqrt_four])
    (by simp only [eosR1]
        rw [show (2 : ℝ) * (0 - 1 / 2 * 3) + 3 / (2 + 1) = -2 by norm_num,
          show (0 : ℝ) / (1 / 2 * (2 - 1)) = 0 by norm_num]
        exact max_eq_left (by norm_num))]
  simp only [eosR1]
  norm_num

theorem hPhase2_R1 : srPhase2 uR1 eosR1 3 0 0 = (1 / 2, 0) := by
  have harg : (0 * srF2 uR1 eosR1 3 0 0 (1 / 2) - 1 / 2 * srF2 uR1 eosR1 3 0 0 0) /
      (srF2 uR1 eosR1 3 0 0 (1 / 2) - srF2 uR1 eosR1 3 0 0 0) = 1 / 2 := by
    rw [hF2_zero_R1, hF2_half_R1]
    norm_num
  have h3 : srF2 uR1 eosR1 3 0 0
      ((0 * srF2 uR1 eosR1 3 0 0 (1 / 2) - 1 / 2 * srF2 uR1 eosR1 3 0 0 0) /
        (srF2 uR1 eosR1 3 0 0 (1 / 2) - srF2 uR1 eosR1 3 0 0 0)) = 0 := by
    rw [harg]
    exact hF2_half_R1
  simp only [srPhase2]
  rw [hZ1_R1]
  rw [rfPhase_first_exact (srF2 uR1 eosR1 3 0 0) 0 (1 / 2)
    (by rw [show (0 : ℝ) - 1 / 2 = -(1 / 2) by norm_num, abs_neg,
          abs_of_pos (by norm_num : (0 : ℝ) < 1 / 2)]
        norm_num [tol])
    (by rw [hF2_zero_R1, hF2_half_R1]; norm_num [tol]) h3, harg]

theorem hMu_R1 : srMu uR1 eosR1 3 0 0 = 1 / 2 := by
  rw [srMu, hPhase2_R1]

theorem hX_R1 : srX uR1 eosR1 3 0 0 = 1 := by
  rw [srX, hMu_R1, hB2n_R1]
  norm_num

theorem hRbar_R1 : srRbar uR1 eosR1 3 0 0 = 3 := by
  rw [srRbar, hX_R1, hR_R1, hRparn_R1]
  rw [show (1 : ℝ) * 1 * Real.sqrt 3 * Real.sqrt 3
      = Real.sqrt 3 * Real.sqrt 3 by ring, sqrt3_sq]
  ring

theorem hQbar_R1 : srQbar uR1 eosR1 3 0 0 = 0 := by
  rw [srQbar, hQ_R1, hB2n_R1, hMu_R1, hRbar_R1, hRparn_R1]
  norm_num

theorem hZ2v_R1 : srZ2v uR1 eosR1 3 0 0 = 3 := by
  rw [srZ2v, hMu_R1, hRbar_R1]
  rw [show (1 : ℝ) - 1 / 2 * (1 / 2) * 3 = 1 / 4 by norm_num,
    abs_of_pos (by norm_num : (0 : ℝ) < 1 / 4)]
  norm_num

theorem hLor_R1 : srLor uR1 eosR1 3 0 0 = 2 := by
  rw [srLor, hZ2v_R1, show (1 : ℝ) + 3 = 4 by norm_num, sqrt_four]

theorem hWd_R1 : srWd uR1 eosR1 3 0 0 = 1 / 2 := by
  rw [srWd, hU2d_R1, hLor_R1]

theorem hEpsRaw_R1 : srEpsRaw uR1 eosR1 3 0 0 = -2 := by
  rw [srEpsRaw, hLor_R1, hQbar_R1, hMu_R1, hRbar_R1, hZ2v_R1]
  norm_num

theorem hEpsmin_R1 : srEpsmin uR1 eosR1 3 0 0 = 0 := by
  rw [srEpsmin, hWd_R1]
  simp [eosR1]

theorem hEps_R1 : srEps uR1 eosR1 3 0 0 = 0 := by
  rw [srEps, hEpsRaw_R1, hEpsmin_R1, if_pos (by norm_num : (-2 : ℝ) ≤ 0)]

theorem hEfl_R1 : srEflOut uR1 eosR1 3 0 0 false = true := by
  rw [srEflOut, hEpsRaw_R1, hEpsmin_R1, if_pos (by norm_num : (-2 : ℝ) ≤ 0)]

/-- C1 (counterexample): on the admissible conserved state
`d = 1, m = (1,1,1), e = 0, B = 0` (with `gamma = 2, dfloor = 1, pfloor = 0`,
`s2 = 3, b2 = 0, rpar = 0`), the relativistic postprocessing energy-floor
site triggers (flag set, entry floor not hit) but the conserved energy is
left at `0`, which differs from floored-internal + kinetic + magnetic
energy (`0 + 3/2 + 0`). -/
theorem C1_counterexample :
    (SingleC2P_IdealSRMHD uR1 eosR1 3 0 0 false false 0).efloor_used = true ∧
    ¬ (srU1 uR1 eosR1).e < eosR1.pfloor / (eosR1.gamma - 1) + 0.5 * 0 ∧
    (SingleC2P_IdealSRMHD uR1 eosR1 3 0 0 false false 0).u.e = 0 ∧
    (SingleC2P_IdealSRMHD uR1 eosR1 3 0 0 false false 0).w.e
      + eKin (SingleC2P_IdealSRMHD uR1 eosR1 3 0 0 false false 0).u
      + eMag (SingleC2P_IdealSRMHD uR1 eosR1 3 0 0 false false 0).u = 3 / 2 ∧
    (SingleC2P_IdealSRMHD uR1 eosR1 3 0 0 false false 0).u.e
      ≠ (SingleC2P_IdealSRMHD uR1 eosR1 3 0 0 false false 0).w.e
        + eKin (SingleC2P_IdealSRMHD uR1 eosR1 3 0 0 false false 0).u
        + eMag (SingleC2P_IdealSRMHD uR1 eosR1 3 0 0 false false 0).u := by
  have hu : (SingleC2P_IdealSRMHD uR1 eosR1 3 0 0 false false 0).u = srU2 uR1 eosR1 0 := rfl
  have hwe : (SingleC2P_IdealSRMHD uR1 eosR1 3 0 0 false false 0).w.e
      = srWd uR1 eosR1 3 0 0 * srEps uR1 eosR1 3 0 0 := rfl
  have hfl : (SingleC2P_IdealSRMHD uR1 eosR1 3 0 0 false false 0).efloor_used
      = srEflOut uR1 eosR1 3 0 0 false := rfl
  have hue : (srU2 uR1 eosR1 0).e = 0 := by rw [hU2_R1]; rfl
  have hsum : (SingleC2P_IdealSRMHD uR1 eosR1 3 0 0 false false 0).w.e
      + eKin (SingleC2P_IdealSRMHD uR1 eosR1 3 0 0 false false 0).u
      + eMag (SingleC2P_IdealSRMHD uR1 eosR1 3 0 0 false false 0).u = 3 / 2 := by
    rw [hwe, hu, hWd_R1, hEps_R1, hU2_R1]
    simp only [eKin, eMag, uR1]
    norm_num
  refine ⟨by rw [hfl, hEfl_R1], ?_, by rw [hu, hue], hsum, ?_⟩
  · rw [srU1_e]
    simp only [uR1, eosR1]
    norm_num
  · rw [hsum, hu, hue]
    norm_num

/-- C3 (counterexample): on the same admissible state, the relativistic
conversion returns primitive density `1/2`, strictly below the configured
density floor `dfloor = 1`. -/
theorem C3_counterexample :
    eosR1.dfloor = 1 ∧
    (SingleC2P_IdealSRMHD uR1 eosR1 3 0 0 false false 0).w.d = 1 / 2 ∧
    ¬ eosR1.dfloor ≤ (SingleC2P_IdealSRMHD uR1 eosR1 3 0 0 false false 0).w.d := by
  have hwd : (SingleC2P_IdealSRMHD uR1 eosR1 3 0 0 false false 0).w.d
      = srWd uR1 eosR1 3 0 0 := rfl
  refine ⟨rfl, by rw [hwd, hWd_R1], ?_⟩
  rw [hwd, hWd_R1]
  simp only [eosR1]
  norm_num

/-! ### The bracket function at the endpoints (claim C5) -/

/-- `Equation49` with `r = rpar = 0` is `mu - 1` (static states). -/
theorem eq49_static (mu b2 q : ℝ) : Equation49 mu b2 0 0 q = mu - 1 := by
  simp [Equation49, Real.sqrt_one]

/-- C5 (amended): at the ends of the initial bracket, `fa(0) = -1 < 0` and
`fa(1) >= 0` whenever the magnetization parameter is nonnegative; the signs
are strictly opposite iff `r` or `rpar` is nonzero, while for `r = rpar = 0`
the endpoint `mu = 1` is itself a root of the bracket function. -/
theorem C5_amended (b2 rp r q : ℝ) (hb2 : 0 ≤ b2) :
    Equation49 0 b2 rp r q = -1 ∧ 0 ≤ Equation49 1 b2 rp r q ∧
      ((r ≠ 0 ∨ rp ≠ 0) → Equation49 0 b2 rp r q * Equation49 1 b2 rp r q < 0) := by
  have hx1 : (0 : ℝ) < 1 + b2 := by linarith
  have hxpos : 0 < 1 / (1 + b2) := by positivity
  set x : ℝ := 1 / (1 + b2) with hxdef
  have heval : Equation49 1 b2 rp r q
      = 1 * Real.sqrt (1 + (x * x * r * r + 1 * x * (1 + x) * rp * rp)) - 1 :=
    Equation49_eval 1 b2 rp r q x (x * x * r * r + 1 * x * (1 + x) * rp * rp)
      (by rw [one_mul]) rfl
  have h1 : 0 ≤ x * x * r * r := by nlinarith [sq_nonneg (x * r)]
  have h2 : 0 ≤ 1 * x * (1 + x) * rp * rp := by nlinarith [sq_nonneg rp, hxpos]
  have hnn : 0 ≤ x * x * r * r + 1 * x * (1 + x) * rp * rp := by linarith
  refine ⟨eq49_zero b2 rp r q, ?_, ?_⟩
  · rw [heval, one_mul]
    have : Real.sqrt 1 ≤ Real.sqrt (1 + (x * x * r * r + 1 * x * (1 + x) * rp * rp)) :=
      Real.sqrt_le_sqrt (by linarith)
    rw [Real.sqrt_one] at this
    linarith
  · intro hne
    have hpos : 0 < x * x * r * r + 1 * x * (1 + x) * rp * rp := by
      rcases hne with hr | hrp
      · have : 0 < x * x * r * r := by
          have hxr : x * r ≠ 0 := mul_ne_zero (ne_of_gt hxpos) hr
          nlinarith [mul_self_pos.mpr hxr]
        linarith
      · have : 0 < 1 * x * (1 + x) * rp * rp := by
          have hrp2 : 0 < rp * rp := mul_self_pos.mpr hrp
          nlinarith [hxpos, hrp2]
        linarith
    have hgt : 1 < Real.sqrt (1 + (x * x * r * r + 1 * x * (1 + x) * rp * rp)) := by
      have := Real.sqrt_lt_sqrt (by norm_num : (0 : ℝ) ≤ 1) (by linarith :
        (1 : ℝ) < 1 + (x * x * r * r + 1 * x * (1 + x) * rp * rp))
      rwa [Real.sqrt_one] at this
    rw [eq49_zero b2 rp r q, heval, one_mul]
    nlinarith

/-- Witness for C5 (amended) at `b2 = 0, rp = 0, r = 1, q = 0`. -/
theorem C5_witness :
    (0 : ℝ) ≤ 0 ∧ ((1 : ℝ) ≠ 0 ∨ (0 : ℝ) ≠ 0) ∧
      Equation49 0 0 0 1 0 * Equation49 1 0 0 1 0 < 0 :=
  ⟨le_refl 0, Or.inl one_ne_zero,
    (C5_amended 0 0 1 0 (le_refl 0)).2.2 (Or.inl one_ne_zero)⟩

/-- The static relativistic state `d = 1, m = 0, e = 1, B = 0` with
`gamma = 2, dfloor = 1, pfloor = 0` (`s2 = b2 = rpar = 0`): an admissible
state on which the bracket endpoint value `fa(1)` is exactly zero. -/
def uR3 : MHDCons1D := ⟨1, 0, 0, 0, 1, 0, 0, 0⟩

def eosR3 : EOS_Data := ⟨2, 1, 0⟩

theorem hU2_R3 : srU2 uR3 eosR3 0 = uR3 := by
  simp only [srU2, srU1, uR3, eosR3]
  norm_num

theorem hU2d_R3 : (srU2 uR3 eosR3 0).d = 1 := by rw [hU2_R3]; rfl

theorem hQ_R3 : srQ uR3 eosR3 0 = 1 := by
  rw [srQ, hU2_R3]
  simp [uR3]

theorem hR_R3 : srR uR3 eosR3 0 0 = 0 := by
  rw [srR, hU2_R3]
  simp [uR3]

theorem hB2n_R3 : srB2n uR3 eosR3 0 = 0 := by
  rw [srB2n]
  simp

theorem hRparn_R3 : srRparn uR3 eosR3 0 0 = 0 := by
  rw [srRparn]
  simp

theorem hF1_zero_R3 : srF1 uR3 eosR3 0 0 0 0 = -1 := by
  simp only [srF1]
  exact eq49_zero _ _ _ _

theorem hF1_one_R3 : srF1 uR3 eosR3 0 0 0 1 = 0 := by
  simp only [srF1]
  rw [hB2n_R3, hRparn_R3, hR_R3, hQ_R3, eq49_static]
  norm_num

/-- C5 (counterexample): the static state `uR3` is physically admissible
(`u.d ≥ dfloor > 0`, `u.e ≥ pfloor/(gamma-1) + 0.5*b2`, `b2 = 0 ≥ 0`), yet
the converter's initial bracket values `fa(0) = -1`, `fa(1) = 0` neither
have opposite signs nor satisfy the early-exit tolerance. -/
theorem C5_counterexample :
    (0 : ℝ) < eosR3.dfloor ∧ eosR3.dfloor ≤ uR3.d ∧
    eosR3.pfloor / (eosR3.gamma - 1) + 0.5 * 0 ≤ uR3.e ∧
    srF1 uR3 eosR3 0 0 0 0 = -1 ∧ srF1 uR3 eosR3 0 0 0 1 = 0 ∧
    ¬ (srF1 uR3 eosR3 0 0 0 0 * srF1 uR3 eosR3 0 0 0 1 < 0 ∨
        |(0 : ℝ) - 1| < tol ∨
        |srF1 uR3 eosR3 0 0 0 0| + |srF1 uR3 eosR3 0 0 0 1| < 2 * tol) := by
  refine ⟨by simp [eosR3], by simp [eosR3, uR3], by simp [eosR3, uR3],
    hF1_zero_R3, hF1_one_R3, ?_⟩
  rw [hF1_zero_R3, hF1_one_R3]
  push_neg
  refine ⟨by norm_num, by norm_num [tol], by norm_num [tol]⟩

/-! ### The pressure floor inside `Equation44` (claim C7) -/

/-- C7: inside every evaluation of `Equation44`, the specific internal
energy entering the enthalpy is floored at `pfloor/((u_d/w)*(gamma-1))`,
the pressure floor at the locally implied rest-frame density `u_d/w`;
equivalently, `Equation44` equals the master-function formula assembled
from the floored energy `max(pfloor/((u_d/w)*(gamma-1)), eps_raw)`. -/
theorem C7_floor_inside (mu b2 rpar r q u_d : ℝ) (eos : EOS_Data) :
    eos.pfloor / (u_d / eq44w mu b2 rpar r * (eos.gamma - 1))
      ≤ max (eos.pfloor / (u_d / eq44w mu b2 rpar r * (eos.gamma - 1)))
          (eq44epsRaw mu b2 rpar r q) ∧
    Equation44 mu b2 rpar r q u_d eos
      = mu - 1 / ((1 + eos.gamma
            * max (eos.pfloor / (u_d / eq44w mu b2 rpar r * (eos.gamma - 1)))
                (eq44epsRaw mu b2 rpar r q)) / eq44w mu b2 rpar r
          + eq44rbar mu b2 rpar r * mu) := by
  refine ⟨le_max_left _ _, ?_⟩
  exact Equation44_eval mu b2 rpar r q u_d eos
    (1 / (1 + mu * b2)) (eq44rbar mu b2 rpar r)
    (q - 0.5 * b2 - 0.5 * (mu * mu * (b2 * eq44rbar mu b2 rpar r - rpar * rpar)))
    (mu * mu * eq44rbar mu b2 rpar r / |1 - mu * mu * eq44rbar mu b2 rpar r|)
    (eq44w mu b2 rpar r)
    (max (eos.pfloor / (u_d / eq44w mu b2 rpar r * (eos.gamma - 1)))
      (eq44epsRaw mu b2 rpar r q))
    rfl rfl rfl rfl rfl rfl

/-! ### Generic phase evaluations for static-type states -/

/-- Phase running on `mu - 1` (the bracket function of any state with
`r = rpar = 0`) converges to `z = 1` at its first iteration. -/
theorem rfPhase_linear_one (f : ℝ → ℝ) (hf : ∀ mu, f mu = mu - 1) :
    rfPhase f 0 1 = (1, 0) := by
  have harg : (0 * f 1 - 1 * f 0) / (f 1 - f 0) = 1 := by
    rw [hf 0, hf 1]
    norm_num
  have h3 : f ((0 * f 1 - 1 * f 0) / (f 1 - f 0)) = 0 := by
    rw [harg, hf 1]
    norm_num
  rw [rfPhase_first_exact f 0 1 (by norm_num [tol])
    (by rw [hf 0, hf 1]; norm_num [tol]) h3, harg]

/-- Phase running on the linear function `mu - 1/h` with `1 ≤ h` converges
to the root `1/h` at its first iteration. -/
theorem rfPhase_linear_root (f : ℝ → ℝ) (h : ℝ) (hh : 1 ≤ h)
    (hf : ∀ mu, f mu = mu - 1 / h) : rfPhase f 0 1 = (1 / h, 0) := by
  have hpos : 0 < h := lt_of_lt_of_le one_pos hh
  have hne : h ≠ 0 := ne_of_gt hpos
  have hinv0 : 0 < 1 / h := by positivity
  have hinv1 : 1 / h ≤ 1 := by
    rw [div_le_one hpos]
    exact hh
  have h0v : f 0 = -(1 / h) := by rw [hf 0]; ring
  have h1v : f 1 = 1 - 1 / h := by rw [hf 1]
  have harg : (0 * f 1 - 1 * f 0) / (f 1 - f 0) = 1 / h := by
    rw [h0v, h1v]
    have hden : (1 - 1 / h) - -(1 / h) = 1 := by ring
    rw [hden]
    ring
  have h3 : f ((0 * f 1 - 1 * f 0) / (f 1 - f 0)) = 0 := by
    rw [harg, hf]
    ring
  have hsum : ¬ |f 0| + |f 1| < 2 * tol := by
    rw [h0v, h1v, abs_neg, abs_of_pos hinv0, abs_of_nonneg (by linarith)]
    have : 1 / h + (1 - 1 / h) = 1 := by ring
    rw [this]
    norm_num [tol]
  rw [rfPhase_first_exact f 0 1 (by norm_num [tol]) hsum h3, harg]

/-- Exact run of the relativistic solver on the static family
`u = (d=1, m=0, e, B=0)`, `eos = (g, df, pf)`, `s2 = b2 = rpar = 0`, under
no-floor conditions: phase 1 returns `z = 1`, the master function is
`mu - 1/(1+g*e)`, the converged root is `mu = 1/(1+g*e)`, and the
primitive state is `d = 1`, `v = 0`, `e` unchanged. -/
theorem srStatic_run (g df pf e : ℝ) (dflB eflB : Bool) (m : ℤ)
    (H1 : ¬ ((1 : ℝ) < df)) (H5 : pf / (g - 1) < e) (H4 : (1 : ℝ) ≤ 1 + g * e) :
    srZ1 ⟨1, 0, 0, 0, e, 0, 0, 0⟩ ⟨g, df, pf⟩ 0 0 0 = 1 ∧
    (∀ mu, srF2 ⟨1, 0, 0, 0, e, 0, 0, 0⟩ ⟨g, df, pf⟩ 0 0 0 mu = mu - 1 / (1 + g * e)) ∧
    srMu ⟨1, 0, 0, 0, e, 0, 0, 0⟩ ⟨g, df, pf⟩ 0 0 0 = 1 / (1 + g * e) ∧
    (SingleC2P_IdealSRMHD ⟨1, 0, 0, 0, e, 0, 0, 0⟩ ⟨g, df, pf⟩ 0 0 0 dflB eflB m).w.vx = 0 ∧
    (SingleC2P_IdealSRMHD ⟨1, 0, 0, 0, e, 0, 0, 0⟩ ⟨g, df, pf⟩ 0 0 0 dflB eflB m).w.vy = 0 ∧
    (SingleC2P_IdealSRMHD ⟨1, 0, 0, 0, e, 0, 0, 0⟩ ⟨g, df, pf⟩ 0 0 0 dflB eflB m).w.vz = 0 ∧
    (SingleC2P_IdealSRMHD ⟨1, 0, 0, 0, e, 0, 0, 0⟩ ⟨g, df, pf⟩ 0 0 0 dflB eflB m).w.d = 1 ∧
    (SingleC2P_IdealSRMHD ⟨1, 0, 0, 0, e, 0, 0, 0⟩ ⟨g, df, pf⟩ 0 0 0 dflB eflB m).w.e = e := by
  have hcond1 : ¬ ((⟨1, 0, 0, 0, e, 0, 0, 0⟩ : MHDCons1D).d
      < (⟨g, df, pf⟩ : EOS_Data).dfloor) := by
    dsimp only
    exact H1
  have hu1 : srU1 ⟨1, 0, 0, 0, e, 0, 0, 0⟩ ⟨g, df, pf⟩ = ⟨1, 0, 0, 0, e, 0, 0, 0⟩ := by
    rw [srU1, if_neg hcond1]
  have hcond2 : ¬ ((srU1 ⟨1, 0, 0, 0, e, 0, 0, 0⟩ ⟨g, df, pf⟩).e
      < (⟨g, df, pf⟩ : EOS_Data).pfloor / ((⟨g, df, pf⟩ : EOS_Data).gamma - 1)
        + 0.5 * 0) := by
    rw [hu1]
    dsimp only
    rw [mul_zero, add_zero]
    exact not_lt.mpr H5.le
  have hu2 : srU2 ⟨1, 0, 0, 0, e, 0, 0, 0⟩ ⟨g, df, pf⟩ 0 = ⟨1, 0, 0, 0, e, 0, 0, 0⟩ := by
    simp only [srU2]
    rw [if_neg hcond2, hu1]
  have hu2d : (srU2 ⟨1, 0, 0, 0, e, 0, 0, 0⟩ ⟨g, df, pf⟩ 0).d = 1 := by rw [hu2]
  have hq : srQ ⟨1, 0, 0, 0, e, 0, 0, 0⟩ ⟨g, df, pf⟩ 0 = e := by
    rw [srQ, hu2]
    exact div_one e
  have hr : srR ⟨1, 0, 0, 0, e, 0, 0, 0⟩ ⟨g, df, pf⟩ 0 0 = 0 := by
    rw [srR, hu2]
    simp
  have hb2n : srB2n ⟨1, 0, 0, 0, e, 0, 0, 0⟩ ⟨g, df, pf⟩ 0 = 0 := by
    rw [srB2n]
    simp
  have hrparn : srRparn ⟨1, 0, 0, 0, e, 0, 0, 0⟩ ⟨g, df, pf⟩ 0 0 = 0 := by
    rw [srRparn]
    simp
  have hf1 : ∀ mu, srF1 ⟨1, 0, 0, 0, e, 0, 0, 0⟩ ⟨g, df, pf⟩ 0 0 0 mu = mu - 1 := by
    intro mu
    simp only [srF1]
    rw [hb2n, hrparn, hr, hq, eq49_static]
  have hz1 : srZ1 ⟨1, 0, 0, 0, e, 0, 0, 0⟩ ⟨g, df, pf⟩ 0 0 0 = 1 := by
    rw [srZ1, srPhase1, rfPhase_linear_one _ hf1]
  have hf2 : ∀ mu, srF2 ⟨1, 0, 0, 0, e, 0, 0, 0⟩ ⟨g, df, pf⟩ 0 0 0 mu
      = mu - 1 / (1 + g * e) := by
    intro mu
    simp only [srF2]
    rw [hb2n, hrparn, hr, hq, hu2d]
    rw [Equation44_eval mu 0 0 0 e 1 ⟨g, df, pf⟩ 1 0 e 0 1 e
      (by rw [mul_zero]; norm_num) (by ring) (by ring)
      (by rw [mul_zero, zero_div])
      (by rw [add_zero, Real.sqrt_one])
      (by dsimp only
          rw [show (1 : ℝ) * (e - mu * 0) + 0 / (1 + 1) = e by ring,
            show pf / ((1 : ℝ) / 1 * (g - 1)) = pf / (g - 1) by norm_num]
          exact max_eq_right H5.le)]
    dsimp only
    rw [show ((1 : ℝ) + g * e) / 1 + 0 * mu = 1 + g * e by ring]
  have hph2 : srPhase2 ⟨1, 0, 0, 0, e, 0, 0, 0⟩ ⟨g, df, pf⟩ 0 0 0 = (1 / (1 + g * e), 0) := by
    rw [srPhase2, hz1]
    exact rfPhase_linear_root _ (1 + g * e) H4 hf2
  have hmu : srMu ⟨1, 0, 0, 0, e, 0, 0, 0⟩ ⟨g, df, pf⟩ 0 0 0 = 1 / (1 + g * e) := by
    rw [srMu, hph2]
  have hx : srX ⟨1, 0, 0, 0, e, 0, 0, 0⟩ ⟨g, df, pf⟩ 0 0 0 = 1 := by
    rw [srX, hb2n, mul_zero]
    norm_num
  have hrbar : srRbar ⟨1, 0, 0, 0, e, 0, 0, 0⟩ ⟨g, df, pf⟩ 0 0 0 = 0 := by
    rw [srRbar, hx, hr, hrparn]
    ring
  have hqbar : srQbar ⟨1, 0, 0, 0, e, 0, 0, 0⟩ ⟨g, df, pf⟩ 0 0 0 = e := by
    rw [srQbar, hq, hb2n, hrbar, hrparn]
    ring
  have hz2v : srZ2v ⟨1, 0, 0, 0, e, 0, 0, 0⟩ ⟨g, df, pf⟩ 0 0 0 = 0 := by
    rw [srZ2v, hrbar, mul_zero, zero_div]
  have hlor : srLor ⟨1, 0, 0, 0, e, 0, 0, 0⟩ ⟨g, df, pf⟩ 0 0 0 = 1 := by
    rw [srLor, hz2v, add_zero, Real.sqrt_one]
  have hwd : srWd ⟨1, 0, 0, 0, e, 0, 0, 0⟩ ⟨g, df, pf⟩ 0 0 0 = 1 := by
    rw [srWd, hu2d, hlor, div_one]
  have hepsraw : srEpsRaw ⟨1, 0, 0, 0, e, 0, 0, 0⟩ ⟨g, df, pf⟩ 0 0 0 = e := by
    rw [srEpsRaw, hlor, hqbar, hrbar, hz2v]
    ring
  have hepsmin : srEpsmin ⟨1, 0, 0, 0, e, 0, 0, 0⟩ ⟨g, df, pf⟩ 0 0 0 = pf / (g - 1) := by
    rw [srEpsmin, hwd]
    dsimp only
    rw [one_mul]
  have heps : srEps ⟨1, 0, 0, 0, e, 0, 0, 0⟩ ⟨g, df, pf⟩ 0 0 0 = e := by
    rw [srEps, hepsraw, hepsmin, if_neg (not_le.mpr H5)]
  refine ⟨hz1, hf2, hmu, ?_, ?_, ?_, ?_, ?_⟩
  · have hvx : (SingleC2P_IdealSRMHD ⟨1, 0, 0, 0, e, 0, 0, 0⟩ ⟨g, df, pf⟩ 0 0 0 dflB eflB m).w.vx
        = srConv ⟨1, 0, 0, 0, e, 0, 0, 0⟩ ⟨g, df, pf⟩ 0 0 0
          * ((srU2 ⟨1, 0, 0, 0, e, 0, 0, 0⟩ ⟨g, df, pf⟩ 0).mx
              / (srU2 ⟨1, 0, 0, 0, e, 0, 0, 0⟩ ⟨g, df, pf⟩ 0).d
            + (srU2 ⟨1, 0, 0, 0, e, 0, 0, 0⟩ ⟨g, df, pf⟩ 0).bx
              * (1 / Real.sqrt (srU2 ⟨1, 0, 0, 0, e, 0, 0, 0⟩ ⟨g, df, pf⟩ 0).d)
              * srRparn ⟨1, 0, 0, 0, e, 0, 0, 0⟩ ⟨g, df, pf⟩ 0 0
              / (srH ⟨1, 0, 0, 0, e, 0, 0, 0⟩ ⟨g, df, pf⟩ 0 0 0
                  * srLor ⟨1, 0, 0, 0, e, 0, 0, 0⟩ ⟨g, df, pf⟩ 0 0 0)) := rfl
    rw [hvx, hu2, hrparn]
    simp
  · have hvy : (SingleC2P_IdealSRMHD ⟨1, 0, 0, 0, e, 0, 0, 0⟩ ⟨g, df, pf⟩ 0 0 0 dflB eflB m).w.vy
        = srConv ⟨1, 0, 0, 0, e, 0, 0, 0⟩ ⟨g, df, pf⟩ 0 0 0
          * ((srU2 ⟨1, 0, 0, 0, e, 0, 0, 0⟩ ⟨g, df, pf⟩ 0).my
              / (srU2 ⟨1, 0, 0, 0, e, 0, 0, 0⟩ ⟨g, df, pf⟩ 0).d
            + (srU2 ⟨1, 0, 0, 0, e, 0, 0, 0⟩ ⟨g, df, pf⟩ 0).by'
              * (1 / Real.sqrt (srU2 ⟨1, 0, 0, 0, e, 0, 0, 0⟩ ⟨g, df, pf⟩ 0).d)
              * srRparn ⟨1, 0, 0, 0, e, 0, 0, 0⟩ ⟨g, df, pf⟩ 0 0
              / (srH ⟨1, 0, 0, 0, e, 0, 0, 0⟩ ⟨g, df, pf⟩ 0 0 0
                  * srLor ⟨1, 0, 0, 0, e, 0, 0, 0⟩ ⟨g, df, pf⟩ 0 0 0)) := rfl
    rw [hvy, hu2, hrparn]
    simp
  · have hvz : (SingleC2P_IdealSRMHD ⟨1, 0, 0, 0, e, 0, 0, 0⟩ ⟨g, df, pf⟩ 0 0 0 dflB eflB m).w.vz
        = srConv ⟨1, 0, 0, 0, e, 0, 0, 0⟩ ⟨g, df, pf⟩ 0 0 0
          * ((srU2 ⟨1, 0, 0, 0, e, 0, 0, 0⟩ ⟨g, df, pf⟩ 0).mz
              / (srU2 ⟨1, 0, 0, 0, e, 0, 0, 0⟩ ⟨g, df, pf⟩ 0).d
            + (srU2 ⟨1, 0, 0, 0, e, 0, 0, 0⟩ ⟨g, df, pf⟩ 0).bz
              * (1 / Real.sqrt (srU2 ⟨1, 0, 0, 0, e, 0, 0, 0⟩ ⟨g, df, pf⟩ 0).d)
              * srRparn ⟨1, 0, 0, 0, e, 0, 0, 0⟩ ⟨g, df, pf⟩ 0 0
              / (srH ⟨1, 0, 0, 0, e, 0, 0, 0⟩ ⟨g, df, pf⟩ 0 0 0
                  * srLor ⟨1, 0, 0, 0, e, 0, 0, 0⟩ ⟨g, df, pf⟩ 0 0 0)) := rfl
    rw [hvz, hu2, hrparn]
    simp
  · have hwdp : (SingleC2P_IdealSRMHD ⟨1, 0, 0, 0, e, 0, 0, 0⟩ ⟨g, df, pf⟩ 0 0 0 dflB eflB m).w.d
        = srWd ⟨1, 0, 0, 0, e, 0, 0, 0⟩ ⟨g, df, pf⟩ 0 0 0 := rfl
    rw [hwdp, hwd]
  · have hwep : (SingleC2P_IdealSRMHD ⟨1, 0, 0, 0, e, 0, 0, 0⟩ ⟨g, df, pf⟩ 0 0 0 dflB eflB m).w.e
        = srWd ⟨1, 0, 0, 0, e, 0, 0, 0⟩ ⟨g, df, pf⟩ 0 0 0
          * srEps ⟨1, 0, 0, 0, e, 0, 0, 0⟩ ⟨g, df, pf⟩ 0 0 0 := rfl
    rw [hwep, hwd, heps, one_mul]

/-- C6: for the static-fluid input `d = 1, momentum = 0, B = 0, gamma = 5/3`
with conserved energy `e = p/(gamma-1)` for a pressure `p` above the floor,
`SingleC2P_IdealSRMHD` returns velocity `(0,0,0)`, primitive density exactly
`1`, and internal energy density exactly `p/(gamma-1)`. -/
theorem C6_static (p pfl dfl : ℝ) (dflB eflB : Bool) (m : ℤ)
    (hpf : 0 ≤ pfl) (hp : pfl < p) (hd1 : dfl ≤ 1) :
    (SingleC2P_IdealSRMHD ⟨1, 0, 0, 0, p / (5/3 - 1), 0, 0, 0⟩ ⟨5/3, dfl, pfl⟩
        0 0 0 dflB eflB m).w.vx = 0 ∧
    (SingleC2P_IdealSRMHD ⟨1, 0, 0, 0, p / (5/3 - 1), 0, 0, 0⟩ ⟨5/3, dfl, pfl⟩
        0 0 0 dflB eflB m).w.vy = 0 ∧
    (SingleC2P_IdealSRMHD ⟨1, 0, 0, 0, p / (5/3 - 1), 0, 0, 0⟩ ⟨5/3, dfl, pfl⟩
        0 0 0 dflB eflB m).w.vz = 0 ∧
    (SingleC2P_IdealSRMHD ⟨1, 0, 0, 0, p / (5/3 - 1), 0, 0, 0⟩ ⟨5/3, dfl, pfl⟩
        0 0 0 dflB eflB m).w.d = 1 ∧
    (SingleC2P_IdealSRMHD ⟨1, 0, 0, 0, p / (5/3 - 1), 0, 0, 0⟩ ⟨5/3, dfl, pfl⟩
        0 0 0 dflB eflB m).w.e = p / (5/3 - 1) := by
  have hppos : (0 : ℝ) < p := lt_of_le_of_lt hpf hp
  have H1 : ¬ ((1 : ℝ) < dfl) := not_lt.mpr hd1
  have H5 : pfl / ((5 : ℝ)/3 - 1) < p / ((5 : ℝ)/3 - 1) :=
    (div_lt_div_iff_of_pos_right (by norm_num : (0 : ℝ) < (5 : ℝ)/3 - 1)).mpr hp
  have H4 : (1 : ℝ) ≤ 1 + (5 : ℝ)/3 * (p / ((5 : ℝ)/3 - 1)) := by
    have h1 : (0 : ℝ) < p / ((5 : ℝ)/3 - 1) := div_pos hppos (by norm_num)
    nlinarith [h1]
  obtain ⟨-, -, -, hvx, hvy, hvz, hwd, hwe⟩ :=
    srStatic_run ((5 : ℝ)/3) dfl pfl (p / ((5 : ℝ)/3 - 1)) dflB eflB m H1 H5 H4
  exact ⟨hvx, hvy, hvz, hwd, hwe⟩

/-- Witness for C6 at `p = 1, pfloor = 0, dfloor = 1`. -/
theorem C6_witness :
    (0 : ℝ) ≤ 0 ∧ (0 : ℝ) < 1 ∧ (1 : ℝ) ≤ 1 ∧
    (SingleC2P_IdealSRMHD ⟨1, 0, 0, 0, 1 / (5/3 - 1), 0, 0, 0⟩ ⟨5/3, 1, 0⟩
        0 0 0 false false 0).w.vx = 0 ∧
    (SingleC2P_IdealSRMHD ⟨1, 0, 0, 0, 1 / (5/3 - 1), 0, 0, 0⟩ ⟨5/3, 1, 0⟩
        0 0 0 false false 0).w.d = 1 ∧
    (SingleC2P_IdealSRMHD ⟨1, 0, 0, 0, 1 / (5/3 - 1), 0, 0, 0⟩ ⟨5/3, 1, 0⟩
        0 0 0 false false 0).w.e = 1 / (5/3 - 1) := by
  have h := C6_static 1 0 1 false false 0 le_rfl (by norm_num) le_rfl
  exact ⟨le_rfl, by norm_num, le_rfl, h.1, h.2.2.2.1, h.2.2.2.2⟩

/-! ### Bounds on the root variable and recovered speed (claim C9) -/

end
